import Mathlib

/-!
Verification development for the deepseek-engineer assistant (src/r1.py).

The development shallowly embeds the change-validation, review-retry and
commit pipeline of src/r1.py:

* Python strings are embedded as `String` / `List Char`; the Python string
  primitives used by the source (`str.count`, `str.replace(old, new, 1)`,
  `str.split(sep, 1)`, `str.strip`, `str.startswith`, `in`, `"sep".join`)
  are re-implemented below on character lists, following CPython semantics.
* The filesystem is a flat association list from canonical absolute path to
  file content (the OS canonicalizes paths, so the disk is keyed by the
  resolved path; directories always exist in the model, mirroring
  `mkdir(parents=True, exist_ok=True)`).
* `pathlib.Path.resolve()` is embedded lexically (no symlinks): the path is
  made absolute against the current working directory and `.` / `..`
  segments are normalized away, exactly as `resolve()` does for paths
  whose prefixes contain no symlinks.
* The two remote collaborators (generation and review) are external systems
  per the specification, and are embedded as oracle parameters; the number
  of remote review calls is tracked explicitly.
-/

/-- Python `s.startswith(pre)`: `pre` is a prefix of `s` (exact characters). -/
def pyStartsWith (s pre : String) : Bool :=
  pre.data.isPrefixOf s.data

/-- Python `s.endswith(post)`: `post` is a suffix of `s` (exact characters). -/
def pyEndsWith (s post : String) : Bool :=
  post.data.isSuffixOf s.data

/-- Strip whitespace from both ends of a character list (Python `str.strip()`). -/
def stripChars (l : List Char) : List Char :=
  ((l.dropWhile Char.isWhitespace).reverse.dropWhile Char.isWhitespace).reverse

/-- Python `s.strip()`. -/
def pyStrip (s : String) : String :=
  String.mk (stripChars s.data)

/-- Fuel-indexed scanner behind `pyCount`.  CPython `str.count` scans left to
right and counts non-overlapping occurrences, jumping over each match.  The
fuel argument only forces structural termination; it is always at least the
length of the scanned list, so it never runs out before the scan finishes. -/
def pyCountFuel (p : Char) (ps : List Char) : Nat → List Char → Nat
  | 0, _ => 0
  | _ + 1, [] => 0
  | fuel + 1, c :: rest =>
    if (p :: ps).isPrefixOf (c :: rest) then 1 + pyCountFuel p ps fuel (rest.drop ps.length)
    else pyCountFuel p ps fuel rest

/-- Python `s.count(pat)`: non-overlapping occurrences scanning left to right;
an empty pattern counts `len(s) + 1`, as in CPython. -/
def pyCount (s pat : List Char) : Nat :=
  match pat with
  | [] => s.length + 1
  | p :: ps => pyCountFuel p ps s.length s

/-- Scanner behind `pyReplaceOnce`: replace the leftmost occurrence only. -/
def replaceOnceGo (p : Char) (ps new : List Char) : List Char → List Char
  | [] => []
  | c :: rest =>
    if (p :: ps).isPrefixOf (c :: rest) then new ++ rest.drop ps.length
    else c :: replaceOnceGo p ps new rest

/-- Python `s.replace(old, new, 1)`: replace the first occurrence of `old`
by `new`; with an empty `old`, CPython prepends `new`. -/
def pyReplaceOnce (s old new : List Char) : List Char :=
  match old with
  | [] => new ++ s
  | p :: ps => replaceOnceGo p ps new s

/-- Scanner behind `pySplitOnceAfter`: the part of the list after the first
occurrence of the pattern, if any. -/
def dropAfterFirstGo (p : Char) (ps : List Char) : List Char → Option (List Char)
  | [] => none
  | c :: rest =>
    if (p :: ps).isPrefixOf (c :: rest) then some (rest.drop ps.length)
    else dropAfterFirstGo p ps rest

/-- Python `s.split(sep, 1)[1]` when the separator occurs (`none` otherwise). -/
def pySplitOnceAfter (sep l : List Char) : Option (List Char) :=
  match sep with
  | [] => some l
  | p :: ps => dropAfterFirstGo p ps l

/-- Scanner behind `pyContains`. -/
def containsSubGo (p : Char) (ps : List Char) : List Char → Bool
  | [] => false
  | c :: rest => (p :: ps).isPrefixOf (c :: rest) || containsSubGo p ps rest

/-- Python `pat in s` (substring containment). -/
def pyContains (s pat : String) : Bool :=
  match pat.data with
  | [] => true
  | p :: ps => containsSubGo p ps s.data

/-- Python `sep.join(xs)`. -/
def pyJoin (sep : String) : List String → String
  | [] => ""
  | [x] => x
  | x :: xs => x ++ sep ++ pyJoin sep xs

/-- The number of positions at which `pat` occurs in `s` as an exact
substring (occurrences may overlap).  This is the specification-side notion
of "occurrence count", to be compared with the source's `pyCount`. -/
def substringOccurrences (s pat : List Char) : Nat :=
  ((List.range (s.length + 1)).filter (fun i => pat.isPrefixOf (s.drop i))).length

/-- Split a character list on the path separator, as `"a/b".split("/")`. -/
def splitSlash : List Char → List (List Char)
  | [] => [[]]
  | c :: rest =>
    if c = '/' then [] :: splitSlash rest
    else
      match splitSlash rest with
      | [] => [[c]]
      | h :: t => (c :: h) :: t

/-- The components of a path string, as `pathlib` computes `Path(s).parts`
(empty segments and lone dots are dropped; the root is kept implicit). -/
def pathSegments (s : String) : List String :=
  ((splitSlash s.data).map String.mk).filter (fun part => part != "" && part != ".")

/-- Whether a POSIX path string is absolute. -/
def isAbsolutePath (s : String) : Bool :=
  match s.data with
  | c :: _ => c = '/'
  | [] => false

/-- Lexical normalization stack used by `Path.resolve()`: `..` pops the last
component (a no-op at the root), every other component is pushed. -/
def resolveStack (acc : List String) : List String → List String
  | [] => acc
  | seg :: rest =>
    if seg = ".." then resolveStack acc.dropLast rest
    else resolveStack (acc ++ [seg]) rest

/-- The components of `Path(s).resolve()` for a process whose current
working directory has components `cwd` (lexical, symlink-free). -/
def resolveParts (cwd : List String) (s : String) : List String :=
  resolveStack (if isAbsolutePath s then [] else cwd) (pathSegments s)

/-- Render resolved components back to an absolute path string. -/
def renderAbs (parts : List String) : String :=
  match parts with
  | [] => "/"
  | _ => parts.foldl (fun acc part => acc ++ ("/") ++ part) ""

/-- The string `str(Path(s).resolve())`. -/
def normAbs (cwd : List String) (s : String) : String :=
  renderAbs (resolveParts cwd s)

/-- Embeds `normalize_path` (src/r1.py:461-469): resolve the path, then raise
`ValueError` when `".."` is among the resolved components, else return the
resolved path.  `Except.error` models the raised `ValueError`. -/
def normalize_path (cwd : List String) (path_str : String) : Except String String :=
  let parts := resolveParts cwd path_str
  if (("..") ∈ parts) then
    Except.error (("Invalid path: ") ++ path_str ++ (" contains parent directory references"))
  else
    Except.ok (renderAbs parts)

/-- Role of a message in the conversation history. -/
inductive MsgRole
  | system
  | user
  | assistant
  deriving DecidableEq, Repr

/-- A conversation message (`{"role": ..., "content": ...}`). -/
structure ChatMsg where
  role : MsgRole
  content : String
  deriving DecidableEq, Repr

/-- Embeds the Pydantic model `FileToCreate` (src/r1.py:39-41). -/
structure FileToCreate where
  path : String
  content : String
  deriving DecidableEq, Repr

/-- Embeds the Pydantic model `FileToEdit` (src/r1.py:43-46). -/
structure FileToEdit where
  path : String
  original_snippet : String
  new_snippet : String
  deriving DecidableEq, Repr

/-- Embeds the Pydantic model `AssistantResponse` (src/r1.py:48-54). -/
structure AssistantResponse where
  assistant_reply : Option String
  files_to_create : Option (List FileToCreate)
  files_to_edit : Option (List FileToEdit)
  analysis : Option String
  explanation : Option String
  output : Option String
  deriving DecidableEq, Repr

/-- The filesystem: canonical absolute path to file content. -/
abbrev FS := List (String × String)

/-- Read a file from the flat filesystem. -/
def readFS : FS → String → Option String
  | [], _ => none
  | (q, d) :: rest, p => if q = p then some d else readFS rest p

/-- Write (create or overwrite) a file in the flat filesystem. -/
def writeFS : FS → String → String → FS
  | [], p, c => [(p, c)]
  | (q, d) :: rest, p, c => if q = p then (p, c) :: rest else (q, d) :: writeFS rest p c

/-- State mutated by the file operations: the disk plus the global
`conversation_history`. -/
structure EngineState where
  fs : FS
  history : List ChatMsg
  deriving DecidableEq, Repr

/-- The `ValueError`s that `create_file` can raise. -/
inductive FileError
  | homeDir
  | sizeLimit
  deriving DecidableEq, Repr

/-- The path marker used to tag file snapshots in the conversation history
(`f"Content of file '{normalized_path}'"`). -/
def fileMarker (np : String) : String :=
  ("Content of file \x27") ++ np ++ ("\x27")

/-- The system message `f"File operation: Created/updated file at '{path}'"`. -/
def createOpMessage (path : String) : ChatMsg :=
  ⟨MsgRole.system, ("File operation: Created/updated file at \x27") ++ path ++ ("\x27")⟩

/-- The snapshot system message `f"Content of file '{np}':\n\n{content}"`. -/
def snapshotMessage (np content : String) : ChatMsg :=
  ⟨MsgRole.system, fileMarker np ++ (":\n\n") ++ content⟩

/-- The system message `f"File operation: Applied diff edit to '{path}'"`. -/
def editOpMessage (path : String) : ChatMsg :=
  ⟨MsgRole.system, ("File operation: Applied diff edit to \x27") ++ path ++ ("\x27")⟩

/-- Embeds `create_file` (src/r1.py:242-270): reject any path component
starting with `~`; reject content longer than 5,000,000 **characters**
(Python `len` on `str` counts code points); otherwise write the full content
(parent directories always exist in the flat model) and append the operation
message and a snapshot of the new content to the conversation history.
`Except.error` models the raised `ValueError`s. -/
def create_file (cwd : List String) (st : EngineState) (path content : String) :
    Except FileError EngineState :=
  if (pathSegments path).any (fun part => pyStartsWith part ("~")) then
    Except.error FileError.homeDir
  else if content.length > 5000000 then
    Except.error FileError.sizeLimit
  else
    Except.ok ⟨writeFS st.fs (normAbs cwd path) content,
      st.history ++ [createOpMessage path, snapshotMessage (normAbs cwd path) content]⟩

/-- Distinct observable outcomes of `apply_diff_edit`, one per console
diagnostic printed by the source. -/
inductive ApplyOutcome
  | applied
  | fileNotFound
  | snippetNotFound
  | ambiguous (occurrences : Nat)
  | createFailed (e : FileError)
  deriving DecidableEq, Repr

/-- Embeds `apply_diff_edit` (src/r1.py:286-315): read the live file, count
occurrences of the original snippet on disk, fail (with no state change) on
zero or multiple matches, else replace the first occurrence and commit via
`create_file`, then record the edit message.  All raised errors are caught
inside the function, so it always returns a state. -/
def apply_diff_edit (cwd : List String) (st : EngineState)
    (path original_snippet new_snippet : String) : EngineState × ApplyOutcome :=
  match readFS st.fs (normAbs cwd path) with
  | none => (st, ApplyOutcome.fileNotFound)
  | some content =>
    let occurrences := pyCount content.data original_snippet.data
    if occurrences = 0 then (st, ApplyOutcome.snippetNotFound)
    else if occurrences > 1 then (st, ApplyOutcome.ambiguous occurrences)
    else
      match create_file cwd st path
          (String.mk (pyReplaceOnce content.data original_snippet.data new_snippet.data)) with
      | Except.ok st₁ => (⟨st₁.fs, st₁.history ++ [editOpMessage path]⟩, ApplyOutcome.applied)
      | Except.error e => (st, ApplyOutcome.createFailed e)

/-- Scanner behind `get_file_content_from_history`: front-to-back scan of the
history, mirroring the loop body of src/r1.py:353-359 (system role, marker
containment, then `split(marker + ":\n\n", 1)`). -/
def historyLookupGo (np : String) : List ChatMsg → Option String
  | [] => none
  | msg :: rest =>
    if msg.role = MsgRole.system ∧ pyContains msg.content (fileMarker np) = true then
      match pySplitOnceAfter (fileMarker np ++ (":\n\n")).data msg.content.data with
      | some after => some (String.mk after)
      | none => historyLookupGo np rest
    else historyLookupGo np rest

/-- Embeds `get_file_content_from_history` (src/r1.py:339-359).  The source
normalizes the path with `normalize_path`, which never raises (see
`normalize_path_never_fails` below), so the embedding uses `normAbs`. -/
def get_file_content_from_history (cwd : List String) (file_path : String)
    (history : List ChatMsg) : Option String :=
  historyLookupGo (normAbs cwd file_path) history

/-- The validation message `f"File '{path}' not found in context."`. -/
def msgNotInContext (path : String) : String :=
  ("File \x27") ++ path ++ ("\x27 not found in context.")

/-- The validation message `f"Original snippet not found in '{path}'."`. -/
def msgSnippetMissing (path : String) : String :=
  ("Original snippet not found in \x27") ++ path ++ ("\x27.")

/-- The validation message
`f"Multiple occurrences ({count}) of snippet in '{path}'."`. -/
def msgAmbiguous (count : Nat) (path : String) : String :=
  ("Multiple occurrences (") ++ toString count ++ (") of snippet in \x27") ++ path ++ ("\x27.")

/-- The issue (if any) that `validate_edits` records for a single edit
(src/r1.py:499-508): no snapshot in context, snippet absent from the
snapshot, or multiple occurrences in the snapshot. -/
def issue_for (cwd : List String) (history : List ChatMsg) (edit : FileToEdit) :
    Option String :=
  match get_file_content_from_history cwd edit.path history with
  | none => some (msgNotInContext edit.path)
  | some content =>
    let count := pyCount content.data edit.original_snippet.data
    if count = 0 then some (msgSnippetMissing edit.path)
    else if count > 1 then some (msgAmbiguous count edit.path)
    else none

/-- Embeds `validate_edits` (src/r1.py:495-518): collect one issue per
failing edit; when any issue exists, return a synthesized `NEED_CHANGES`
verdict enumerating all issues, else return `none`. -/
def validate_edits (resp : AssistantResponse) (history : List ChatMsg)
    (cwd : List String) : Option AssistantResponse :=
  let issues := (resp.files_to_edit.getD []).filterMap (fun edit => issue_for cwd history edit)
  if issues.isEmpty then none
  else
    some ⟨none, none, none,
      some (("Invalid edits detected:\n- ") ++ pyJoin ("\n- ") issues),
      some ("Edits cannot be applied due to missing or ambiguous snippets."),
      some ("NEED_CHANGES")⟩

/-- One invocation of `generate_review` (src/r1.py:520-665), with the remote
review collaborator abstracted as the oracle `remotes` (indexed by the
number of remote review calls already made).  When local validation fails,
the synthesized verdict is returned and **no remote call is made** (the call
counter is unchanged); otherwise one remote call is made and its result
(after all remote-side parse handling) is the verdict. -/
def reviewOnce (remotes : Nat → AssistantResponse) (cwd : List String)
    (resp : AssistantResponse) (history : List ChatMsg) (rc : Nat) :
    AssistantResponse × Nat :=
  match validate_edits resp history cwd with
  | some v => (v, rc)
  | none => (remotes rc, rc + 1)

/-- Python `f"{opt}"` on an `Optional[str]`. -/
def pyShowOpt (o : Option String) : String :=
  match o with
  | some s => s
  | none => "None"

/-- The feedback system message appended before a retry
(src/r1.py:952-956). -/
def feedbackMessage (attempt : Nat) (review : AssistantResponse) : ChatMsg :=
  ⟨MsgRole.system,
    ("Code Review Feedback (Attempt ") ++ toString attempt ++ ("):\nAnalysis: ") ++
      pyShowOpt review.analysis ++ ("\nExplanation: ") ++ pyShowOpt review.explanation⟩

/-- State of the review-retry loop of `main` (src/r1.py:948-964): the current
candidate response, its review verdict, the conversation history, the number
of remote review calls made, the `attempt` counter, and the total number of
review cycles performed (ghost counter for the specification). -/
structure LoopState where
  response : AssistantResponse
  review : AssistantResponse
  history : List ChatMsg
  remoteCalls : Nat
  attempt : Nat
  reviews : Nat
  deriving Repr

/-- Embeds the `while attempt < max_attempts and review_response.output ==
"NEED_CHANGES"` loop of `main` (src/r1.py:948-964).  The generation
collaborator (`stream_openai_response`, including its curation of the
history) is the oracle `gens`, mapping the attempt index and current history
to the new candidate and the new history.  The fuel argument only forces
structural termination; any fuel at least 3 is enough because `attempt`
strictly increases. -/
def retryAux (gens : Nat → List ChatMsg → AssistantResponse × List ChatMsg)
    (remotes : Nat → AssistantResponse) (cwd : List String) :
    Nat → LoopState → LoopState
  | 0, s => s
  | fuel + 1, s =>
    if s.attempt < 3 ∧ s.review.output = some ("NEED_CHANGES") then
      let hist := s.history ++ [feedbackMessage s.attempt s.review]
      let g := gens s.attempt hist
      let r := reviewOnce remotes cwd g.1 g.2 s.remoteCalls
      retryAux gens remotes cwd fuel ⟨g.1, r.1, g.2, r.2, s.attempt + 1, s.reviews + 1⟩
    else s

/-- Run the creation half of the commit phase (src/r1.py:968-970).  The
`create_file` calls are **not** wrapped in a handler in `main`, so a raised
`ValueError` aborts the turn with the earlier writes kept: the fold stops at
the first error and reports it. -/
def commitCreates (cwd : List String) : List FileToCreate → EngineState →
    EngineState × Option FileError
  | [], st => (st, none)
  | f :: rest, st =>
    match create_file cwd st f.path f.content with
    | Except.ok st₁ => commitCreates cwd rest st₁
    | Except.error e => (st, some e)

/-- Run the edit half of the commit phase (src/r1.py:971-973).
`apply_diff_edit` catches all of its errors, so every edit is attempted and
the per-edit outcomes are collected. -/
def commitEdits (cwd : List String) : List FileToEdit → EngineState →
    EngineState × List ApplyOutcome
  | [], st => (st, [])
  | e :: rest, st =>
    let r := apply_diff_edit cwd st e.path e.original_snippet e.new_snippet
    let rr := commitEdits cwd rest r.1
    (rr.1, r.2 :: rr.2)

/-- The commit phase of `main` on a `CORRECT` verdict (src/r1.py:967-973):
create all new files, then apply all edits in order. -/
def commitChangeSet (cwd : List String) (resp : AssistantResponse) (st : EngineState) :
    EngineState × Option FileError × List ApplyOutcome :=
  let cr := commitCreates cwd (resp.files_to_create.getD []) st
  match cr.2 with
  | some e => (cr.1, some e, [])
  | none =>
    let er := commitEdits cwd (resp.files_to_edit.getD []) cr.1
    (er.1, none, er.2)

/-- Observable result of one user turn. -/
structure TurnResult where
  response : AssistantResponse
  review : AssistantResponse
  attempt : Nat
  remoteCalls : Nat
  reviews : Nat
  loopHistory : List ChatMsg
  state : EngineState
  committed : Option AssistantResponse
  commitError : Option FileError
  editOutcomes : List ApplyOutcome
  deriving Repr

/-- Embeds one user turn of `main` from the first generation through the
final outcome handling (src/r1.py:916-976): generate, review, retry while
`NEED_CHANGES` and attempts remain, then commit the final change-set exactly
when the final verdict is `CORRECT`. -/
def runTurn (gens : Nat → List ChatMsg → AssistantResponse × List ChatMsg)
    (remotes : Nat → AssistantResponse) (cwd : List String)
    (hist₀ : List ChatMsg) (fs₀ : FS) : TurnResult :=
  let g0 := gens 0 hist₀
  let r0 := reviewOnce remotes cwd g0.1 g0.2 0
  let s := retryAux gens remotes cwd 3 ⟨g0.1, r0.1, g0.2, r0.2, 1, 1⟩
  if s.review.output = some ("CORRECT") then
    let c := commitChangeSet cwd s.response ⟨fs₀, s.history⟩
    ⟨s.response, s.review, s.attempt, s.remoteCalls, s.reviews, s.history,
      c.1, some s.response, c.2.1, c.2.2⟩
  else
    ⟨s.response, s.review, s.attempt, s.remoteCalls, s.reviews, s.history,
      ⟨fs₀, s.history⟩, none, none, []⟩

/-- Embeds the brace repair of `stream_openai_response`
(src/r1.py:790-795): strip the accumulated text, prepend one `\x7b` when the
stripped text does not start with one, then append one `\x7d` when the
result does not end with one. -/
def repairJson (s : String) : String :=
  let t := pyStrip s
  let t₁ := if pyStartsWith t ("\x7b") then t else ("\x7b") ++ t
  if pyEndsWith t₁ ("\x7d") then t₁ else t₁ ++ ("\x7d")

/-- Embeds the parse stage of `stream_openai_response` (src/r1.py:781-822):
blank accumulated text short-circuits to a stub reply; otherwise the
brace-repaired text is parsed (the JSON decoder plus the construction of the
response object is the oracle `parse`), and a parse failure yields a
degraded response carrying the error text with empty change lists.  The
function is total: the parse path never raises. -/
def stream_parse_final_content (parse : String → Except String AssistantResponse)
    (final_content : String) : AssistantResponse :=
  if pyStrip final_content = "" then
    ⟨some ("No response generated"), some [], some [], none, none, none⟩
  else
    match parse (repairJson final_content) with
    | Except.ok r => r
    | Except.error e =>
      ⟨some (("Failed to parse JSON response from assistant: ") ++ e),
        some [], some [], none, none, none⟩

/-! Concrete fixtures used by the witnesses and counterexamples below. -/

/-- A change-set with two edits to the same file; the first edit destroys the
second edit's snippet on disk. -/
def exPartialResp : AssistantResponse :=
  ⟨some ("r"), none, some [⟨"/w/f.txt", "A", "C"⟩, ⟨"/w/f.txt", "AB", "D"⟩], none, none, none⟩

/-- A generation oracle that always proposes `exPartialResp` and leaves the
history unchanged. -/
def exPartialGens : Nat → List ChatMsg → AssistantResponse × List ChatMsg :=
  fun _ h => (exPartialResp, h)

/-- A remote review oracle that always returns a `CORRECT` verdict. -/
def exRemoteCorrect : Nat → AssistantResponse :=
  fun _ => ⟨none, none, none, some ("ok"), some ("ok"), some ("CORRECT")⟩

/-- A history holding one snapshot of `/w/f.txt` with content `AB`. -/
def exPartialHist : List ChatMsg := [snapshotMessage ("/w/f.txt") ("AB")]

/-- A disk holding `/w/f.txt` with content `AB` (matching the snapshot). -/
def exPartialFS : FS := [("/w/f.txt", "AB")]

/-- A history holding one snapshot of `/w/a.txt` with content `aaa`. -/
def exOverlapHist : List ChatMsg := [snapshotMessage ("/w/a.txt") ("aaa")]

/-- A history holding one snapshot of `/w/b.txt` with two `foo` lines. -/
def exFooHist : List ChatMsg := [snapshotMessage ("/w/b.txt") ("foo\nfoo\n")]

/-- A state whose disk and history both hold `/w/b.txt` as two `foo` lines. -/
def exFooSt : EngineState := ⟨[("/w/b.txt", "foo\nfoo\n")], exFooHist⟩

/-- A change-set with one edit whose original snippet is absent from the
snapshot of its file. -/
def exMissingSnippetResp : AssistantResponse :=
  ⟨none, none, some [⟨"/w/c.txt", "zzz", "y"⟩], none, none, none⟩

/-- A history holding one snapshot of `/w/c.txt` with content `hello`. -/
def exC4Hist : List ChatMsg := [snapshotMessage ("/w/c.txt") ("hello")]

/-- A remote review oracle that always returns `NEED_CHANGES`. -/
def exRemoteNeedChanges : Nat → AssistantResponse :=
  fun _ => ⟨none, none, none, some ("a"), some ("e"), some ("NEED_CHANGES")⟩

/-- A remote review oracle that always returns `INCORRECT`. -/
def exRemoteIncorrect : Nat → AssistantResponse :=
  fun _ => ⟨none, none, none, some ("a"), some ("e"), some ("INCORRECT")⟩

/-- A candidate response proposing no changes at all. -/
def exBenignResp : AssistantResponse :=
  ⟨some ("hi"), none, none, none, none, none⟩

/-- A generation oracle that always proposes `exBenignResp` and leaves the
history unchanged. -/
def exBenignGens : Nat → List ChatMsg → AssistantResponse × List ChatMsg :=
  fun _ h => (exBenignResp, h)

/-- A 2,500,001-character string whose UTF-8 encoding is 7,500,003 bytes. -/
def bigContent : String := String.mk (List.replicate 2500001 '€')

/-- A history holding one snapshot of `/w/d.txt` with content `old`. -/
def exStaleHist : List ChatMsg := [snapshotMessage ("/w/d.txt") ("old")]

/-- A state whose disk and history both hold `/w/d.txt` with content `old`. -/
def exStaleSt : EngineState := ⟨[("/w/d.txt", "old")], exStaleHist⟩

/-- The state after `create_file` overwrites `/w/d.txt` with `new` in
`exStaleSt`. -/
def exStaleSt₁ : EngineState :=
  ⟨[("/w/d.txt", "new")],
    exStaleHist ++ [createOpMessage ("/w/d.txt"), snapshotMessage ("/w/d.txt") ("new")]⟩

/-- A parse oracle that always fails. -/
def exParseFail : String → Except String AssistantResponse :=
  fun _ => Except.error ("boom")

/-- A change-set with one edit whose file has no snapshot in context. -/
def exNoCtxResp : AssistantResponse :=
  ⟨none, none, some [⟨"/w/e.txt", "a", "b"⟩], none, none, none⟩

/-- Whether a history message is the snapshot the lookup loop accepts: a
system message containing the full snapshot marker for the path. -/
def snapshotMatch (np : String) (msg : ChatMsg) : Bool :=
  msg.role == MsgRole.system && pyContains msg.content (fileMarker np ++ (":\n\n"))

/-- Whether an `Except` result is a success. -/
def exceptIsOk : Except FileError EngineState → Bool
  | Except.ok _ => true
  | Except.error _ => false

/-! Supporting lemmas. -/

/-- The resolution stack never contains a parent-directory component when the
starting accumulator does not: `..` only pops, and every pushed component is
not `..`. -/
theorem resolveStack_no_dotdot (segs : List String) (acc : List String)
    (hacc : (("..") : String) ∉ acc) : (("..") : String) ∉ resolveStack acc segs := by
  induction segs generalizing acc with
  | nil => simpa [resolveStack] using hacc
  | cons seg rest ih =>
    simp only [resolveStack]
    split
    · exact ih _ (fun h => hacc ((List.dropLast_sublist acc).subset h))
    · rename_i hne
      refine ih _ ?_
      intro h
      rcases List.mem_append.1 h with h | h
      · exact hacc h
      · simp only [List.mem_singleton] at h
        exact hne h.symm

/-- `normalize_path` never raises: `Path.resolve()` eliminates every `..`
segment before the dead traversal check runs (assuming the working directory
itself is resolved). -/
theorem normalize_path_never_fails (cwd : List String) (s : String)
    (h : (("..") : String) ∉ cwd) :
    normalize_path cwd s = Except.ok (normAbs cwd s) := by
  have hmem : (("..") : String) ∉ resolveParts cwd s := by
    unfold resolveParts
    apply resolveStack_no_dotdot
    split
    · simp
    · exact h
  unfold normalize_path normAbs
  simp [hmem]

/-- A non-empty string has a non-empty character list. -/
theorem data_ne_nil_of_ne_empty (s : String) (h : s ≠ "") : s.data ≠ [] := by
  intro hd
  apply h
  cases s with
  | mk l =>
    simp only [String.data] at hd
    subst hd
    rfl

/-- Appending on the left does not change whether a single character is a
suffix, as long as the right part is non-empty. -/
theorem isSuffixOf_singleton_append (c : Char) (a t : List Char) (ht : t ≠ []) :
    ([c].isSuffixOf (a ++ t)) = ([c].isSuffixOf t) := by
  have hrev : t.reverse ≠ [] := by simpa using ht
  obtain ⟨h, tl, htl⟩ := List.exists_cons_of_ne_nil hrev
  simp only [List.isSuffixOf, List.reverse_append, htl, List.cons_append,
    List.reverse_cons, List.reverse_nil, List.nil_append]
  simp [List.isPrefixOf]

/-- The containment scanner decides the infix relation. -/
theorem containsSubGo_eq_true_iff (p : Char) (ps l : List Char) :
    containsSubGo p ps l = true ↔ (p :: ps) <:+: l := by
  induction l with
  | nil => simp [containsSubGo]
  | cons c rest ih =>
    simp only [containsSubGo, Bool.or_eq_true, ih, List.isPrefixOf_iff_prefix]
    rw [List.infix_cons_iff]

/-- `pyContains` decides the infix relation on the character lists. -/
theorem pyContains_iff (s pat : String) :
    pyContains s pat = true ↔ pat.data <:+: s.data := by
  cases hp : pat.data with
  | nil => simp [pyContains, hp]
  | cons p ps => simp [pyContains, hp, containsSubGo_eq_true_iff]

/-- The split scanner fails exactly when the pattern does not occur. -/
theorem dropAfterFirstGo_eq_none_iff (p : Char) (ps l : List Char) :
    dropAfterFirstGo p ps l = none ↔ ¬ ((p :: ps) <:+: l) := by
  induction l with
  | nil => simp [dropAfterFirstGo]
  | cons c rest ih =>
    simp only [dropAfterFirstGo]
    split
    · rename_i hpre
      rw [ List.isPrefixOf_iff_prefix] at hpre
      simp [hpre.isInfix]
    · rename_i hpre
      rw [ih, List.infix_cons_iff]
      have hnp : ¬ ((p :: ps) <+: c :: rest) := by
        rw [← List.isPrefixOf_iff_prefix]
        simpa using hpre
      tauto

/-- `pySplitOnceAfter` fails exactly when the separator does not occur. -/
theorem pySplitOnceAfter_eq_none_iff (sep l : List Char) :
    pySplitOnceAfter sep l = none ↔ ¬ (sep <:+: l) := by
  cases sep with
  | nil => simp [pySplitOnceAfter]
  | cons p ps => simpa [pySplitOnceAfter] using dropAfterFirstGo_eq_none_iff p ps l

/-- The front-to-back lookup loop returns the extracted content of the first
message accepted by `snapshotMatch`. -/
theorem historyLookupGo_eq_find (np : String) (hist : List ChatMsg) :
    historyLookupGo np hist =
      match hist.find? (fun m => snapshotMatch np m) with
      | none => none
      | some m =>
        (pySplitOnceAfter (fileMarker np ++ (":\n\n")).data m.content.data).map String.mk := by
  induction hist with
  | nil => rfl
  | cons msg rest ih =>
    by_cases hm : snapshotMatch np msg = true
    · have hrole : msg.role = MsgRole.system := by
        have := hm
        simp only [snapshotMatch, Bool.and_eq_true, beq_iff_eq] at this
        exact this.1
      have hcol : pyContains msg.content (fileMarker np ++ (":\n\n")) = true := by
        have := hm
        simp only [snapshotMatch, Bool.and_eq_true, beq_iff_eq] at this
        exact this.2
      have hmark : pyContains msg.content (fileMarker np) = true := by
        rw [pyContains_iff]
        have hinf := (pyContains_iff _ _).1 hcol
        refine List.IsInfix.trans ?_ hinf
        rw [String.data_append]
        exact (List.prefix_append _ _).isInfix
      have hfind : (msg :: rest).find? (fun m => snapshotMatch np m) = some msg :=
        List.find?_cons_of_pos _ hm
      rw [hfind]
      simp only [historyLookupGo, if_pos (And.intro hrole hmark)]
      cases hsp : pySplitOnceAfter (fileMarker np ++ (":\n\n")).data msg.content.data with
      | none =>
        exact absurd ((pyContains_iff _ _).1 hcol)
          ((pySplitOnceAfter_eq_none_iff _ _).1 hsp)
      | some after => simp
    · have hfind : (msg :: rest).find? (fun m => snapshotMatch np m) =
          rest.find? (fun m => snapshotMatch np m) :=
        List.find?_cons_of_neg _ (by simpa using hm)
      rw [hfind]
      by_cases hcond : msg.role = MsgRole.system ∧ pyContains msg.content (fileMarker np) = true
      · have hncol : ¬ pyContains msg.content (fileMarker np ++ (":\n\n")) = true := by
          intro h
          exact hm (by simp [snapshotMatch, hcond.1, h])
        have hsp : pySplitOnceAfter (fileMarker np ++ (":\n\n")).data msg.content.data = none := by
          rw [pySplitOnceAfter_eq_none_iff]
          intro hinf
          exact hncol ((pyContains_iff _ _).2 hinf)
        simp only [historyLookupGo, if_pos hcond, hsp]
        exact ih
      · simp only [historyLookupGo, if_neg hcond]
        exact ih

/-- A successful lookup is unchanged by appending messages at the end of the
history: the first match wins. -/
theorem historyLookupGo_append_of_some (np : String) (hist extra : List ChatMsg)
    (c : String) (h : historyLookupGo np hist = some c) :
    historyLookupGo np (hist ++ extra) = some c := by
  induction hist with
  | nil => simp [historyLookupGo] at h
  | cons msg rest ih =>
    simp only [List.cons_append, historyLookupGo] at h ⊢
    by_cases hcond : msg.role = MsgRole.system ∧ pyContains msg.content (fileMarker np) = true
    · rw [if_pos hcond] at h ⊢
      cases hsp : pySplitOnceAfter (fileMarker np ++ (":\n\n")).data msg.content.data with
      | none =>
        simp only [hsp] at h ⊢
        exact ih h
      | some after =>
        simp only [hsp] at h ⊢
        exact h
    · rw [if_neg hcond] at h ⊢
      exact ih h

/-- Shape of a successful `create_file`: the write and the two appended
history messages. -/
theorem create_file_ok_shape (cwd : List String) (st : EngineState) (path content : String)
    (st₁ : EngineState) (h : create_file cwd st path content = Except.ok st₁) :
    st₁.fs = writeFS st.fs (normAbs cwd path) content ∧
    st₁.history = st.history ++
      [createOpMessage path, snapshotMessage (normAbs cwd path) content] := by
  unfold create_file at h
  split at h
  · exact absurd h (by simp)
  · split at h
    · exact absurd h (by simp)
    · simp only [Except.ok.injEq] at h
      subst h
      exact ⟨rfl, rfl⟩

/-- `validate_edits` passes exactly when no edit records an issue. -/
theorem validate_edits_eq_none_iff (resp : AssistantResponse) (history : List ChatMsg)
    (cwd : List String) :
    validate_edits resp history cwd = none ↔
      (resp.files_to_edit.getD []).filterMap (fun edit => issue_for cwd history edit) = [] := by
  dsimp only [validate_edits]
  split
  · rename_i h
    simp only [List.isEmpty_iff] at h
    simp [h]
  · rename_i h
    simp only [List.isEmpty_iff] at h
    simp [h]

/-- Shape of the synthesized verdict when some edit records an issue. -/
theorem validate_edits_of_ne_nil (resp : AssistantResponse) (history : List ChatMsg)
    (cwd : List String)
    (h : (resp.files_to_edit.getD []).filterMap (fun edit => issue_for cwd history edit) ≠ []) :
    validate_edits resp history cwd =
      some ⟨none, none, none,
        some (("Invalid edits detected:\n- ") ++ pyJoin ("\n- ")
          ((resp.files_to_edit.getD []).filterMap (fun edit => issue_for cwd history edit))),
        some ("Edits cannot be applied due to missing or ambiguous snippets."),
        some ("NEED_CHANGES")⟩ := by
  dsimp only [validate_edits]
  split
  · rename_i hemp
    simp only [List.isEmpty_iff] at hemp
    exact absurd hemp h
  · rfl

/-- Every verdict synthesized by `validate_edits` is `NEED_CHANGES`. -/
theorem validate_edits_output (resp : AssistantResponse) (history : List ChatMsg)
    (cwd : List String) (v : AssistantResponse)
    (h : validate_edits resp history cwd = some v) : v.output = some ("NEED_CHANGES") := by
  dsimp only [validate_edits] at h
  split at h
  · exact absurd h (by simp)
  · simp only [Option.some.injEq] at h
    rw [← h]

/-- One review adds at most one remote call. -/
theorem reviewOnce_snd_le (remotes : Nat → AssistantResponse) (cwd : List String)
    (resp : AssistantResponse) (hist : List ChatMsg) (rc : Nat) :
    (reviewOnce remotes cwd resp hist rc).2 ≤ rc + 1 := by
  unfold reviewOnce
  split
  · exact Nat.le_succ rc
  · exact Nat.le_refl _

/-- Loop invariant of the retry loop: the current review verdict and
remote-call counter are always the output of `reviewOnce` on the current
candidate response, at some history and some call index. -/
theorem retryAux_review_inv (gens : Nat → List ChatMsg → AssistantResponse × List ChatMsg)
    (remotes : Nat → AssistantResponse) (cwd : List String) (fuel : Nat) (s : LoopState)
    (h : ∃ hist rc, reviewOnce remotes cwd s.response hist rc = (s.review, s.remoteCalls)) :
    ∃ hist rc,
      reviewOnce remotes cwd (retryAux gens remotes cwd fuel s).response hist rc =
        ((retryAux gens remotes cwd fuel s).review,
          (retryAux gens remotes cwd fuel s).remoteCalls) := by
  induction fuel generalizing s with
  | zero => exact h
  | succ k ih =>
    dsimp only [retryAux]
    split
    · exact ih _ ⟨_, _, rfl⟩
    · exact h

/-- Loop invariant of the retry loop: the cycle count equals the attempt
counter, the attempt counter never exceeds 3, and the number of remote calls
never exceeds the number of review cycles. -/
theorem retryAux_bounds (gens : Nat → List ChatMsg → AssistantResponse × List ChatMsg)
    (remotes : Nat → AssistantResponse) (cwd : List String) (fuel : Nat) (s : LoopState)
    (h1 : s.reviews = s.attempt) (h2 : s.attempt ≤ 3) (h3 : s.remoteCalls ≤ s.reviews) :
    (retryAux gens remotes cwd fuel s).reviews = (retryAux gens remotes cwd fuel s).attempt ∧
    (retryAux gens remotes cwd fuel s).attempt ≤ 3 ∧
    (retryAux gens remotes cwd fuel s).remoteCalls ≤ (retryAux gens remotes cwd fuel s).reviews := by
  induction fuel generalizing s with
  | zero => exact ⟨h1, h2, h3⟩
  | succ k ih =>
    dsimp only [retryAux]
    split
    · rename_i hcond
      apply ih
      · simpa using h1
      · dsimp only
        have := hcond.1
        omega
      · dsimp only
        have hle := reviewOnce_snd_le remotes cwd
          (gens s.attempt (s.history ++ [feedbackMessage s.attempt s.review])).1
          (gens s.attempt (s.history ++ [feedbackMessage s.attempt s.review])).2
          s.remoteCalls
        omega
    · exact ⟨h1, h2, h3⟩

/-- UTF-8 byte size of a replicated character. -/
theorem utf8ByteSize_mk_replicate (n : Nat) (c : Char) :
    (String.mk (List.replicate n c)).utf8ByteSize = n * c.utf8Size := by
  show String.utf8ByteSize.go (List.replicate n c) = n * c.utf8Size
  induction n with
  | zero =>
    rw [Nat.zero_mul, List.replicate_zero]
    rfl
  | succ k ih =>
    rw [List.replicate_succ]
    show String.utf8ByteSize.go (List.replicate k c) + c.utf8Size = (k + 1) * c.utf8Size
    rw [ih, Nat.succ_mul]

/-- Auxiliary: reading back the key just written. -/
theorem readFS_writeFS (fs : FS) (p c : String) : readFS (writeFS fs p c) p = some c := by
  induction fs with
  | nil => simp [writeFS, readFS]
  | cons kv rest ih =>
    obtain ⟨q, d⟩ := kv
    simp only [writeFS]
    by_cases h : q = p
    · rw [if_pos h]
      simp [readFS]
    · rw [if_neg h]
      simp only [readFS]
      rw [if_neg h]
      exact ih

/-- Auxiliary: every issue message contains the offending path verbatim. -/
theorem issue_for_mentions_path (cwd : List String) (hist : List ChatMsg)
    (e : FileToEdit) (m : String) (h : issue_for cwd hist e = some m) :
    e.path.data <:+: m.data := by
  unfold issue_for at h
  cases hl : get_file_content_from_history cwd e.path hist with
  | none =>
    rw [hl] at h
    simp only [Option.some.injEq] at h
    subst h
    exact ⟨("File \x27").data, ("\x27 not found in context.").data, by
      simp [msgNotInContext]⟩
  | some content =>
    rw [hl] at h
    dsimp only at h
    split at h
    · simp only [Option.some.injEq] at h
      subst h
      exact ⟨("Original snippet not found in \x27").data, ("\x27.").data, by
        simp [msgSnippetMissing]⟩
    · split at h
      · simp only [Option.some.injEq] at h
        subst h
        refine ⟨(("Multiple occurrences (") ++
          toString (pyCount content.data e.original_snippet.data) ++
          (") of snippet in \x27")).data, ("\x27.").data, by simp [msgAmbiguous]⟩
      · exact absurd h (by simp)

/-- Claim C1 (code-bug evidence): committing a `CORRECT` change-set is not
all-or-nothing.  With disk and snapshot both holding `/w/f.txt` as `AB`,
the change-set with edits `A → C` then `AB → D` passes local validation,
receives a `CORRECT` verdict, and the commit applies the first edit (the
file becomes `CB`) while the second edit fails on the live disk and is
silently skipped: a strict non-empty subset of the change-set is
committed. -/
theorem commit_partial_changeset_bug :
    (runTurn exPartialGens exRemoteCorrect [] exPartialHist exPartialFS).review.output =
      some ("CORRECT") ∧
    (runTurn exPartialGens exRemoteCorrect [] exPartialHist exPartialFS).committed =
      some exPartialResp ∧
    (runTurn exPartialGens exRemoteCorrect [] exPartialHist exPartialFS).editOutcomes =
      [ApplyOutcome.applied, ApplyOutcome.snippetNotFound] ∧
    readFS (runTurn exPartialGens exRemoteCorrect [] exPartialHist exPartialFS).state.fs
      ("/w/f.txt") = some ("CB") := by
  exact ⟨rfl, rfl, rfl, rfl⟩

/-- Claim C2 (code-bug evidence): path normalization never rejects
parent-directory segments or home-directory shorthand.  `Path.resolve()`
removes every `..` segment before the traversal check runs (see
`normalize_path_never_fails`), so `normalize_path` accepts `../etc/passwd`,
and `~` is never checked at all, so `~/secret.txt` is accepted too —
contradicting the intended security check documented in the source. -/
theorem normalize_path_traversal_check_dead :
    normalize_path ["home", "user"] ("../etc/passwd") = Except.ok ("/home/etc/passwd") ∧
    normalize_path ["home", "user"] ("~/secret.txt") = Except.ok ("/home/user/~/secret.txt") := by
  exact ⟨rfl, rfl⟩

/-- Claim C3 (counterexample): the snippet `aa` occurs at two positions of
`aaa` as an exact substring, yet both the context-snapshot check and the
live-disk check treat it as a unique match (`Ok`, and the apply step
replaces the first occurrence), because `str.count` counts non-overlapping
occurrences only.  This refutes the claimed trichotomy with respect to
exact-substring occurrence counting. -/
theorem validate_overlap_counterexample :
    substringOccurrences ("aaa").data ("aa").data = 2 ∧
    issue_for [] exOverlapHist ⟨"/w/a.txt", "aa", "b"⟩ = none ∧
    (apply_diff_edit [] ⟨[("/w/a.txt", "aaa")], exOverlapHist⟩ ("/w/a.txt") ("aa") ("b")).2 =
      ApplyOutcome.applied ∧
    readFS (apply_diff_edit [] ⟨[("/w/a.txt", "aaa")], exOverlapHist⟩ ("/w/a.txt") ("aa")
      ("b")).1.fs ("/w/a.txt") = some ("ba") := by
  exact ⟨rfl, rfl, rfl, rfl⟩

/-- Claim C7 (counterexample): the size ceiling is 5,000,000 **characters**,
not bytes.  A 2,500,001-character content whose UTF-8 encoding is 7,500,003
bytes passes the check and is written. -/
theorem create_file_byte_limit_counterexample :
    bigContent.utf8ByteSize = 7500003 ∧
    5000000 < bigContent.utf8ByteSize ∧
    exceptIsOk (create_file [] ⟨[], []⟩ ("a.txt") bigContent) = true := by
  have hchar : ('€').utf8Size = 3 := by decide
  have hsz : bigContent.utf8ByteSize = 7500003 := by
    unfold bigContent
    rw [utf8ByteSize_mk_replicate, hchar]
  have hlen : bigContent.length = 2500001 := by
    show (List.replicate 2500001 '€').length = 2500001
    exact List.length_replicate _ _
  refine ⟨hsz, by rw [hsz]; norm_num, ?_⟩
  have hseg : ¬ ((pathSegments ("a.txt")).any (fun part => pyStartsWith part ("~")) = true) := by
    decide
  have hnot : ¬ (bigContent.length > 5000000) := by
    rw [hlen]
    norm_num
  unfold create_file
  rw [if_neg hseg, if_neg hnot]
  rfl

/-- Claim C7 (amended): `createOrOverwrite` rejects paths with a
home-directory shorthand segment and rejects content exceeding 5,000,000
**characters** (the source checks `len(content)` on a `str`, not the UTF-8
byte size), in both cases writing nothing (the error result carries no state
change); otherwise it writes exactly the full given content at the
canonical path, replacing any existing file, and appends the operation
message and a snapshot of the new content to the conversation history.
Parent directories always exist in the flat filesystem model, mirroring
`mkdir(parents=True, exist_ok=True)`. -/
theorem create_file_contract (cwd : List String) (st : EngineState) (path content : String) :
    ((∃ part ∈ pathSegments path, pyStartsWith part ("~") = true) →
      create_file cwd st path content = Except.error FileError.homeDir) ∧
    ((∀ part ∈ pathSegments path, ¬ pyStartsWith part ("~") = true) →
      5000000 < content.length →
      create_file cwd st path content = Except.error FileError.sizeLimit) ∧
    ((∀ part ∈ pathSegments path, ¬ pyStartsWith part ("~") = true) →
      content.length ≤ 5000000 →
      create_file cwd st path content =
        Except.ok ⟨writeFS st.fs (normAbs cwd path) content,
          st.history ++ [createOpMessage path, snapshotMessage (normAbs cwd path) content]⟩) := by
  refine ⟨?_, ?_, ?_⟩
  · intro h
    unfold create_file
    rw [if_pos]
    rw [List.any_eq_true]
    obtain ⟨part, hmem, hp⟩ := h
    exact ⟨part, hmem, hp⟩
  · intro hall hlen
    have hne : ¬ ((pathSegments path).any (fun part => pyStartsWith part ("~")) = true) := by
      rw [List.any_eq_true]
      rintro ⟨part, hmem, hp⟩
      exact hall part hmem hp
    unfold create_file
    rw [if_neg hne, if_pos hlen]
  · intro hall hlen
    have hne : ¬ ((pathSegments path).any (fun part => pyStartsWith part ("~")) = true) := by
      rw [List.any_eq_true]
      rintro ⟨part, hmem, hp⟩
      exact hall part hmem hp
    have hnot : ¬ (content.length > 5000000) := by omega
    unfold create_file
    rw [if_neg hne, if_neg hnot]

/-- Witness for `create_file_contract`: a concrete rejected path and a
concrete successful write with its snapshot. -/
theorem create_file_contract_witness :
    create_file [] ⟨[], []⟩ ("~cfg/a.txt") ("hi") = Except.error FileError.homeDir ∧
    create_file [] ⟨[], []⟩ ("b.txt") ("hi") =
      Except.ok ⟨[("/b.txt", "hi")],
        [createOpMessage ("b.txt"), snapshotMessage ("/b.txt") ("hi")]⟩ := by
  constructor
  · exact (create_file_contract [] ⟨[], []⟩ ("~cfg/a.txt") ("hi")).1
      ⟨"~cfg", by decide, by decide⟩
  · have h := (create_file_contract [] ⟨[], []⟩ ("b.txt") ("hi")).2.2 (by decide) (by decide)
    rw [h]
    rfl

/-- Claim C4: when at least one edit of the change-set fails local
validation against the context snapshot, `generate_review` returns the
synthesized `NEED_CHANGES` verdict built by `validate_edits` — whose
analysis is the join of one issue line per failing edit, each naming the
failing path — and the remote review call counter is unchanged (zero remote
review calls are made). -/
theorem review_local_short_circuit
    (remotes : Nat → AssistantResponse) (cwd : List String) (resp : AssistantResponse)
    (hist : List ChatMsg) (rc : Nat)
    (h : ∃ e ∈ resp.files_to_edit.getD [], issue_for cwd hist e ≠ none) :
    (reviewOnce remotes cwd resp hist rc).2 = rc ∧
    (reviewOnce remotes cwd resp hist rc).1.output = some ("NEED_CHANGES") ∧
    (reviewOnce remotes cwd resp hist rc).1.analysis =
      some (("Invalid edits detected:\n- ") ++ pyJoin ("\n- ")
        ((resp.files_to_edit.getD []).filterMap (fun edit => issue_for cwd hist edit))) ∧
    (∀ e ∈ resp.files_to_edit.getD [], ∀ m, issue_for cwd hist e = some m →
      m ∈ (resp.files_to_edit.getD []).filterMap (fun edit => issue_for cwd hist edit) ∧
      e.path.data <:+: m.data) := by
  have hne : (resp.files_to_edit.getD []).filterMap
      (fun edit => issue_for cwd hist edit) ≠ [] := by
    obtain ⟨e, hmem, hiss⟩ := h
    obtain ⟨m, hm⟩ := Option.ne_none_iff_exists'.1 hiss
    intro hnil
    have hmemf : m ∈ (resp.files_to_edit.getD []).filterMap
        (fun edit => issue_for cwd hist edit) :=
      List.mem_filterMap.2 ⟨e, hmem, hm⟩
    rw [hnil] at hmemf
    simp at hmemf
  have hv := validate_edits_of_ne_nil resp hist cwd hne
  have hro : reviewOnce remotes cwd resp hist rc =
      (⟨none, none, none,
        some (("Invalid edits detected:\n- ") ++ pyJoin ("\n- ")
          ((resp.files_to_edit.getD []).filterMap (fun edit => issue_for cwd hist edit))),
        some ("Edits cannot be applied due to missing or ambiguous snippets."),
        some ("NEED_CHANGES")⟩, rc) := by
    unfold reviewOnce
    rw [hv]
  rw [hro]
  refine ⟨rfl, rfl, rfl, ?_⟩
  intro e hmem m hm
  exact ⟨List.mem_filterMap.2 ⟨e, hmem, hm⟩, issue_for_mentions_path cwd hist e m hm⟩

/-- Witness for `review_local_short_circuit`: a change-set with one edit
whose original snippet is absent from the snapshot triggers the synthesized
verdict and no remote review call (the specification's own example). -/
theorem review_local_short_circuit_witness :
    (reviewOnce exRemoteNeedChanges [] exMissingSnippetResp exC4Hist 0).2 = 0 ∧
    (reviewOnce exRemoteNeedChanges [] exMissingSnippetResp exC4Hist 0).1.output =
      some ("NEED_CHANGES") := by
  have h := review_local_short_circuit exRemoteNeedChanges [] exMissingSnippetResp exC4Hist 0
    ⟨⟨"/w/c.txt", "zzz", "y"⟩, by decide, by decide⟩
  exact ⟨h.1, h.2.1⟩

/-- Claim C10: an edit whose path has no snapshot in the conversation
context at all is a third local-validation failure (beyond `NOT_FOUND` and
`AMBIGUOUS`): the review step returns the synthesized `NEED_CHANGES`
verdict, the issue list contains the `not found in context` message for
that path, and the remote call counter is unchanged.  The embedded
functions are total, so no exception escapes. -/
theorem review_missing_snapshot_short_circuit
    (remotes : Nat → AssistantResponse) (cwd : List String) (resp : AssistantResponse)
    (hist : List ChatMsg) (rc : Nat) (e : FileToEdit)
    (he : e ∈ resp.files_to_edit.getD [])
    (hmiss : get_file_content_from_history cwd e.path hist = none) :
    (reviewOnce remotes cwd resp hist rc).2 = rc ∧
    (reviewOnce remotes cwd resp hist rc).1.output = some ("NEED_CHANGES") ∧
    msgNotInContext e.path ∈
      (resp.files_to_edit.getD []).filterMap (fun edit => issue_for cwd hist edit) := by
  have hiss : issue_for cwd hist e = some (msgNotInContext e.path) := by
    unfold issue_for
    rw [hmiss]
  have hmem : msgNotInContext e.path ∈
      (resp.files_to_edit.getD []).filterMap (fun edit => issue_for cwd hist edit) :=
    List.mem_filterMap.2 ⟨e, he, hiss⟩
  have hne : (resp.files_to_edit.getD []).filterMap
      (fun edit => issue_for cwd hist edit) ≠ [] := by
    intro hnil
    rw [hnil] at hmem
    simp at hmem
  have hv := validate_edits_of_ne_nil resp hist cwd hne
  have hro : reviewOnce remotes cwd resp hist rc =
      (⟨none, none, none,
        some (("Invalid edits detected:\n- ") ++ pyJoin ("\n- ")
          ((resp.files_to_edit.getD []).filterMap (fun edit => issue_for cwd hist edit))),
        some ("Edits cannot be applied due to missing or ambiguous snippets."),
        some ("NEED_CHANGES")⟩, rc) := by
    unfold reviewOnce
    rw [hv]
  rw [hro]
  exact ⟨rfl, rfl, hmem⟩

/-- Witness for `review_missing_snapshot_short_circuit`: an edit against an
empty context short-circuits with the `not found in context` message. -/
theorem review_missing_snapshot_short_circuit_witness :
    (reviewOnce exRemoteNeedChanges [] exNoCtxResp [] 0).2 = 0 ∧
    msgNotInContext ("/w/e.txt") ∈
      (exNoCtxResp.files_to_edit.getD []).filterMap (fun edit => issue_for [] [] edit) := by
  have h := review_missing_snapshot_short_circuit exRemoteNeedChanges [] exNoCtxResp [] 0
    ⟨"/w/e.txt", "a", "b"⟩ (by decide) (by decide)
  exact ⟨h.1, h.2.2⟩

/-- Claim C3 (amended): with the occurrence count taken as Python
`str.count` — non-overlapping occurrences scanning left to right — the
trichotomy holds for both checks.  Given that the context snapshot and the
live disk both hold `content` for the path: a zero count yields the
`NOT_FOUND` issue (and the live apply fails with no state change), a count
of two or more yields the `AMBIGUOUS` issue carrying the count (and the
live apply fails with no state change), and the snapshot check passes
exactly when the count is one, in which case the live apply replaces the
single matched occurrence (unless the rewritten file itself trips a
`create_file` limit, in which case nothing is written). -/
theorem snippet_validation_trichotomy
    (cwd : List String) (hist : List ChatMsg) (st : EngineState)
    (path snippet newSnippet content : String)
    (hlook : get_file_content_from_history cwd path hist = some content)
    (hread : readFS st.fs (normAbs cwd path) = some content) :
    (pyCount content.data snippet.data = 0 →
      issue_for cwd hist ⟨path, snippet, newSnippet⟩ = some (msgSnippetMissing path) ∧
      apply_diff_edit cwd st path snippet newSnippet = (st, ApplyOutcome.snippetNotFound)) ∧
    (2 ≤ pyCount content.data snippet.data →
      issue_for cwd hist ⟨path, snippet, newSnippet⟩ =
        some (msgAmbiguous (pyCount content.data snippet.data) path) ∧
      apply_diff_edit cwd st path snippet newSnippet =
        (st, ApplyOutcome.ambiguous (pyCount content.data snippet.data))) ∧
    (issue_for cwd hist ⟨path, snippet, newSnippet⟩ = none ↔
      pyCount content.data snippet.data = 1) ∧
    (pyCount content.data snippet.data = 1 →
      ((apply_diff_edit cwd st path snippet newSnippet).2 = ApplyOutcome.applied ∧
        readFS (apply_diff_edit cwd st path snippet newSnippet).1.fs (normAbs cwd path) =
          some (String.mk (pyReplaceOnce content.data snippet.data newSnippet.data))) ∨
      (∃ err, apply_diff_edit cwd st path snippet newSnippet =
        (st, ApplyOutcome.createFailed err))) := by
  refine ⟨?_, ?_, ?_, ?_⟩
  · intro hn
    constructor
    · unfold issue_for
      rw [hlook]
      dsimp only
      rw [if_pos hn]
    · unfold apply_diff_edit
      rw [hread]
      dsimp only
      rw [if_pos hn]
  · intro hn
    have h0 : ¬ (pyCount content.data snippet.data = 0) := by omega
    have h1 : pyCount content.data snippet.data > 1 := by omega
    constructor
    · unfold issue_for
      rw [hlook]
      dsimp only
      rw [if_neg h0, if_pos h1]
    · unfold apply_diff_edit
      rw [hread]
      dsimp only
      rw [if_neg h0, if_pos h1]
  · constructor
    · intro hnone
      by_contra hne1
      have : pyCount content.data snippet.data = 0 ∨
          pyCount content.data snippet.data > 1 := by omega
      rcases this with h0 | h2
      · have : issue_for cwd hist ⟨path, snippet, newSnippet⟩ =
            some (msgSnippetMissing path) := by
          unfold issue_for
          rw [hlook]
          dsimp only
          rw [if_pos h0]
        rw [this] at hnone
        exact absurd hnone (by simp)
      · have h0 : ¬ (pyCount content.data snippet.data = 0) := by omega
        have : issue_for cwd hist ⟨path, snippet, newSnippet⟩ =
            some (msgAmbiguous (pyCount content.data snippet.data) path) := by
          unfold issue_for
          rw [hlook]
          dsimp only
          rw [if_neg h0, if_pos h2]
        rw [this] at hnone
        exact absurd hnone (by simp)
    · intro h1
      have h0 : ¬ (pyCount content.data snippet.data = 0) := by omega
      have h2 : ¬ (pyCount content.data snippet.data > 1) := by omega
      unfold issue_for
      rw [hlook]
      dsimp only
      rw [if_neg h0, if_neg h2]
  · intro h1
    have h0 : ¬ (pyCount content.data snippet.data = 0) := by omega
    have h2 : ¬ (pyCount content.data snippet.data > 1) := by omega
    have happ : apply_diff_edit cwd st path snippet newSnippet =
        match create_file cwd st path
            (String.mk (pyReplaceOnce content.data snippet.data newSnippet.data)) with
        | Except.ok st₁ => (⟨st₁.fs, st₁.history ++ [editOpMessage path]⟩, ApplyOutcome.applied)
        | Except.error e => (st, ApplyOutcome.createFailed e) := by
      unfold apply_diff_edit
      rw [hread]
      dsimp only
      rw [if_neg h0, if_neg h2]
    cases hc : create_file cwd st path
        (String.mk (pyReplaceOnce content.data snippet.data newSnippet.data)) with
    | ok st₁ =>
      left
      rw [happ, hc]
      dsimp only
      refine ⟨rfl, ?_⟩
      rw [(create_file_ok_shape cwd st path _ st₁ hc).1]
      exact readFS_writeFS st.fs (normAbs cwd path) _
    | error e =>
      right
      refine ⟨e, ?_⟩
      rw [happ, hc]

/-- Witness for `snippet_validation_trichotomy`: the specification's own
example, a file holding two `foo` lines, is `AMBIGUOUS` with occurrence
count 2 for snippet `foo` in both the snapshot check and the live check. -/
theorem snippet_validation_trichotomy_witness :
    issue_for [] exFooHist ⟨"/w/b.txt", "foo", "x"⟩ = some (msgAmbiguous 2 ("/w/b.txt")) ∧
    apply_diff_edit [] exFooSt ("/w/b.txt") ("foo") ("x") =
      (exFooSt, ApplyOutcome.ambiguous 2) := by
  have h := (snippet_validation_trichotomy [] exFooHist exFooSt ("/w/b.txt") ("foo") ("x")
    ("foo\nfoo\n") (by decide) (by decide)).2.1 (by decide)
  have hc : pyCount ("foo\nfoo\n").data ("foo").data = 2 := by decide
  rw [hc] at h
  exact h

/-- Claim C9: `lookupFileSnapshot` scans messages front-to-back and returns
the content of the first (oldest) snapshot message whose marker matches the
path, or absent if none matches; and because `createOrOverwrite` appends a
new snapshot rather than replacing the old one, a lookup after a successful
`create_file` on an already-snapshotted path still returns the original
stale content. -/
theorem lookup_snapshot_oldest_first :
    (∀ (np : String) (hist : List ChatMsg),
      historyLookupGo np hist =
        match hist.find? (fun m => snapshotMatch np m) with
        | none => none
        | some m =>
          (pySplitOnceAfter (fileMarker np ++ (":\n\n")).data m.content.data).map String.mk) ∧
    (∀ (cwd : List String) (st : EngineState) (path content stale : String)
      (st₁ : EngineState),
      get_file_content_from_history cwd path st.history = some stale →
      create_file cwd st path content = Except.ok st₁ →
      get_file_content_from_history cwd path st₁.history = some stale) := by
  constructor
  · exact historyLookupGo_eq_find
  · intro cwd st path content stale st₁ hlook hcreate
    unfold get_file_content_from_history at hlook ⊢
    rw [(create_file_ok_shape cwd st path content st₁ hcreate).2]
    exact historyLookupGo_append_of_some _ _ _ _ hlook

/-- Witness for `lookup_snapshot_oldest_first`: after overwriting
`/w/d.txt` (snapshotted as `old`) with `new`, the lookup still returns
`old`. -/
theorem lookup_snapshot_oldest_first_witness :
    create_file [] exStaleSt ("/w/d.txt") ("new") = Except.ok exStaleSt₁ ∧
    get_file_content_from_history [] ("/w/d.txt") exStaleSt₁.history = some ("old") := by
  have hc : create_file [] exStaleSt ("/w/d.txt") ("new") = Except.ok exStaleSt₁ := by rfl
  refine ⟨hc, ?_⟩
  exact lookup_snapshot_oldest_first.2 [] exStaleSt ("/w/d.txt") ("new") ("old") exStaleSt₁
    (by decide) hc

/-- Auxiliary: every run of a turn is the branch on the final loop state's
verdict, and that final state satisfies the loop invariants. -/
theorem runTurn_cases (gens : Nat → List ChatMsg → AssistantResponse × List ChatMsg)
    (remotes : Nat → AssistantResponse) (cwd : List String)
    (hist₀ : List ChatMsg) (fs₀ : FS) :
    ∃ s : LoopState,
      (∃ hist rc, reviewOnce remotes cwd s.response hist rc = (s.review, s.remoteCalls)) ∧
      s.reviews = s.attempt ∧ s.attempt ≤ 3 ∧ s.remoteCalls ≤ s.reviews ∧
      runTurn gens remotes cwd hist₀ fs₀ =
        (if s.review.output = some ("CORRECT") then
          ⟨s.response, s.review, s.attempt, s.remoteCalls, s.reviews, s.history,
            (commitChangeSet cwd s.response ⟨fs₀, s.history⟩).1, some s.response,
            (commitChangeSet cwd s.response ⟨fs₀, s.history⟩).2.1,
            (commitChangeSet cwd s.response ⟨fs₀, s.history⟩).2.2⟩
        else ⟨s.response, s.review, s.attempt, s.remoteCalls, s.reviews, s.history,
          ⟨fs₀, s.history⟩, none, none, []⟩) := by
  refine ⟨retryAux gens remotes cwd 3
    ⟨(gens 0 hist₀).1, (reviewOnce remotes cwd (gens 0 hist₀).1 (gens 0 hist₀).2 0).1,
      (gens 0 hist₀).2, (reviewOnce remotes cwd (gens 0 hist₀).1 (gens 0 hist₀).2 0).2,
      1, 1⟩, ?_, ?_, ?_, ?_, ?_⟩
  · exact retryAux_review_inv gens remotes cwd 3 _ ⟨(gens 0 hist₀).2, 0, rfl⟩
  · exact (retryAux_bounds gens remotes cwd 3 _ rfl (by norm_num)
      (reviewOnce_snd_le remotes cwd (gens 0 hist₀).1 (gens 0 hist₀).2 0)).1
  · exact (retryAux_bounds gens remotes cwd 3 _ rfl (by norm_num)
      (reviewOnce_snd_le remotes cwd (gens 0 hist₀).1 (gens 0 hist₀).2 0)).2.1
  · exact (retryAux_bounds gens remotes cwd 3 _ rfl (by norm_num)
      (reviewOnce_snd_le remotes cwd (gens 0 hist₀).1 (gens 0 hist₀).2 0)).2.2
  · rfl

/-- Claim C5: in every execution of a user turn, the filesystem is mutated
only when the final review verdict is `CORRECT` (otherwise the disk is
returned untouched and nothing is committed); the mutation happens through
the single commit phase at the end of the turn; and the committed change-set
is exactly the final candidate response — the one the final verdict was
issued for, with local validation having passed and the verdict coming from
the remote reviewer for that very change-set. -/
theorem turn_mutation_only_on_correct
    (gens : Nat → List ChatMsg → AssistantResponse × List ChatMsg)
    (remotes : Nat → AssistantResponse) (cwd : List String)
    (hist₀ : List ChatMsg) (fs₀ : FS) (r : TurnResult)
    (hr : r = runTurn gens remotes cwd hist₀ fs₀) :
    (r.review.output ≠ some ("CORRECT") → r.state.fs = fs₀ ∧ r.committed = none) ∧
    (r.review.output = some ("CORRECT") →
      r.committed = some r.response ∧
      r.state = (commitChangeSet cwd r.response ⟨fs₀, r.loopHistory⟩).1 ∧
      ∃ hist rc, validate_edits r.response hist cwd = none ∧ remotes rc = r.review) := by
  subst hr
  obtain ⟨s, hinv, hra, hale, hrle, heq⟩ := runTurn_cases gens remotes cwd hist₀ fs₀
  rw [heq]
  split
  · rename_i hcorr
    refine ⟨fun hne => absurd hcorr hne, fun _ => ⟨rfl, rfl, ?_⟩⟩
    obtain ⟨hist, rc, hro⟩ := hinv
    unfold reviewOnce at hro
    cases hv : validate_edits s.response hist cwd with
    | some v =>
      rw [hv] at hro
      dsimp only at hro
      injection hro with h1 h2
      have hout := validate_edits_output s.response hist cwd v hv
      rw [← h1] at hcorr
      rw [hout] at hcorr
      exact absurd (Option.some.inj hcorr) (by decide)
    | none =>
      rw [hv] at hro
      dsimp only at hro
      injection hro with h1 h2
      exact ⟨hist, rc, hv, h1⟩
  · rename_i hncorr
    exact ⟨fun _ => ⟨rfl, rfl⟩, fun hc => absurd hc hncorr⟩

/-- Witness for `turn_mutation_only_on_correct`: a turn ending in an
`INCORRECT` verdict leaves the (empty) disk untouched and commits nothing. -/
theorem turn_mutation_only_on_correct_witness :
    (runTurn exBenignGens exRemoteIncorrect [] [] []).state.fs = ([] : FS) ∧
    (runTurn exBenignGens exRemoteIncorrect [] [] []).committed = none := by
  exact (turn_mutation_only_on_correct exBenignGens exRemoteIncorrect [] [] [] _ rfl).1
    (by decide)

/-- Claim C6: when local validation never short-circuits and every remote
review verdict is `NEED_CHANGES`, the retry loop terminates after exactly 3
review cycles (`max_attempts = 3`) and issues exactly 3 remote review
calls, committing nothing; and unconditionally the number of remote review
calls never exceeds the number of review cycles, which never exceeds 3 —
local short-circuiting can only lower the remote-call count. -/
theorem retry_loop_three_cycles
    (gens : Nat → List ChatMsg → AssistantResponse × List ChatMsg)
    (remotes : Nat → AssistantResponse) (cwd : List String)
    (hist₀ : List ChatMsg) (fs₀ : FS) (r : TurnResult)
    (hr : r = runTurn gens remotes cwd hist₀ fs₀) :
    (r.remoteCalls ≤ r.reviews ∧ r.reviews ≤ 3) ∧
    ((∀ n h, validate_edits (gens n h).1 (gens n h).2 cwd = none) →
      (∀ k, (remotes k).output = some ("NEED_CHANGES")) →
      r.reviews = 3 ∧ r.remoteCalls = 3 ∧ r.attempt = 3 ∧ r.committed = none ∧
      r.state.fs = fs₀) := by
  subst hr
  constructor
  · obtain ⟨s, hinv, hra, hale, hrle, heq⟩ := runTurn_cases gens remotes cwd hist₀ fs₀
    rw [heq]
    split
    · refine ⟨hrle, ?_⟩
      show s.reviews ≤ 3
      omega
    · refine ⟨hrle, ?_⟩
      show s.reviews ≤ 3
      omega
  · intro H1 H2
    have hro : ∀ n hist rc,
        reviewOnce remotes cwd (gens n hist).1 (gens n hist).2 rc = (remotes rc, rc + 1) := by
      intro n hist rc
      unfold reviewOnce
      rw [H1 n hist]
    refine ⟨?_, ?_, ?_, ?_, ?_⟩ <;>
      simp [runTurn, retryAux, hro, H2]

/-- Witness for `retry_loop_three_cycles`: a benign change-set reviewed
`NEED_CHANGES` three times gives exactly 3 review cycles and 3 remote
calls, with nothing committed. -/
theorem retry_loop_three_cycles_witness :
    (runTurn exBenignGens exRemoteNeedChanges [] [] []).reviews = 3 ∧
    (runTurn exBenignGens exRemoteNeedChanges [] [] []).remoteCalls = 3 ∧
    (runTurn exBenignGens exRemoteNeedChanges [] [] []).committed = none := by
  have h := (retry_loop_three_cycles exBenignGens exRemoteNeedChanges [] [] [] _ rfl).2
    (fun n hist => rfl) (fun k => rfl)
  exact ⟨h.1, h.2.1, h.2.2.2.1⟩

/-- Claim C8: for every accumulated stream text (after the whitespace strip
the source performs first) that is not blank: exactly one `\x7b` is
prepended when the stripped text lacks a leading one, and exactly one
`\x7d` is appended when it lacks a trailing one, before JSON parsing; and
when the parse of the repaired text still fails, the result is the degraded
response carrying the parse error as free text with empty change lists.
The embedded parse stage is a total function: it never raises. -/
theorem stream_parse_lenient
    (parse : String → Except String AssistantResponse) (s : String)
    (hne : pyStrip s ≠ "") :
    ((repairJson s).data =
      (if pyStartsWith (pyStrip s) ("\x7b") = true then ([] : List Char) else ("\x7b").data) ++
        (pyStrip s).data ++
        (if pyEndsWith (pyStrip s) ("\x7d") = true then ([] : List Char)
          else ("\x7d").data)) ∧
    (∀ e, parse (repairJson s) = Except.error e →
      stream_parse_final_content parse s =
        ⟨some (("Failed to parse JSON response from assistant: ") ++ e),
          some [], some [], none, none, none⟩) := by
  have hdata : (pyStrip s).data ≠ [] := data_ne_nil_of_ne_empty _ hne
  constructor
  · dsimp only [repairJson]
    by_cases hst : pyStartsWith (pyStrip s) ("\x7b") = true
    · rw [if_pos hst, if_pos hst]
      by_cases hend : pyEndsWith (pyStrip s) ("\x7d") = true
      · rw [if_pos hend, if_pos hend]
        simp
      · rw [if_neg hend, if_neg hend]
        simp
    · rw [if_neg hst, if_neg hst]
      have hb : ("\x7d").data = ['\x7d'] := rfl
      have hsx : pyEndsWith (("\x7b") ++ pyStrip s) ("\x7d") = pyEndsWith (pyStrip s) ("\x7d") := by
        unfold pyEndsWith
        rw [String.data_append, hb]
        exact isSuffixOf_singleton_append _ _ _ hdata
      rw [hsx]
      by_cases hend : pyEndsWith (pyStrip s) ("\x7d") = true
      · rw [if_pos hend, if_pos hend]
        simp
      · rw [if_neg hend, if_neg hend]
        simp
  · intro e hpe
    unfold stream_parse_final_content
    rw [if_neg hne, hpe]

/-- Witness for `stream_parse_lenient`: the text `abc` (with leading
whitespace) is repaired to `\x7babc\x7d`, and a failing parse yields the
degraded response. -/
theorem stream_parse_lenient_witness :
    (repairJson (" abc")).data = ("\x7babc\x7d").data ∧
    stream_parse_final_content exParseFail (" abc") =
      ⟨some ("Failed to parse JSON response from assistant: boom"),
        some [], some [], none, none, none⟩ := by
  have h := stream_parse_lenient exParseFail (" abc") (by decide)
  constructor
  · rw [h.1]
    rfl
  · exact h.2 ("boom") rfl
